import Mathlib

set_option maxHeartbeats 1000000

/-!
Shallow embedding of the currency-converter CLI (`final-Project2.py`):
the lexical validators, the bounded-retry prompt protocol, the
rate-provider contract and the conversion / rate-lookup orchestrators,
together with theorems settling the specification claims.

Strings are modelled as Lean `String` / `List Char`; whitespace is
modelled by `Char.isWhitespace`, and the ASCII fragments of Python's
`str.strip` / `str.upper` / `str.isdigit` / `str.isalpha` are used.
-/

/-- Python `str.strip()`: drop whitespace from both ends. -/
def stripChars (cs : List Char) : List Char :=
  ((cs.dropWhile Char.isWhitespace).reverse.dropWhile Char.isWhitespace).reverse

/-- Python `str.strip()` on `String`. -/
def pyStrip (s : String) : String := ⟨stripChars s.data⟩

/-- Python `str.upper()` (ASCII fragment). -/
def pyUpper (s : String) : String := ⟨s.data.map Char.toUpper⟩

/-- `text.strip().upper()`, as used by the currency-code prompt. -/
def stripUpper (s : String) : String := pyUpper (pyStrip s)

/-- Python `str.isdigit()`: nonempty and all digits (ASCII fragment). -/
def pyIsDigitStr (cs : List Char) : Bool := !cs.isEmpty && cs.all Char.isDigit

/-- Python `str.isalpha()`: nonempty and all alphabetic (ASCII fragment). -/
def pyIsAlpha (cs : List Char) : Bool := !cs.isEmpty && cs.all Char.isAlpha

/-- Python `int()` applied to a string of decimal digits. -/
def digitsToNat (cs : List Char) : Nat :=
  cs.foldl (fun n c => 10 * n + (c.toNat - 48)) 0

/-- Python `str.split(sep)` for a one-character separator:
`"".split(".") = [""]`, `"a..b".split(".") = ["a","","b"]`. -/
def splitOnChar (sep : Char) : List Char → List (List Char)
  | [] => [[]]
  | c :: cs =>
    match splitOnChar sep cs with
    | [] => [[]]
    | r :: rs => if c = sep then [] :: r :: rs else (c :: r) :: rs

theorem splitOnChar_ne_nil (sep : Char) (cs : List Char) :
    splitOnChar sep cs ≠ [] := by
  induction cs with
  | nil => simp [splitOnChar]
  | cons c cs ih =>
    simp only [splitOnChar]
    rcases h : splitOnChar sep cs with _ | ⟨r, rs⟩
    · simp
    · by_cases hc : c = sep <;> simp [hc]

/-- Interleave the separator back between the split parts. -/
def joinSep (sep : Char) : List (List Char) → List Char
  | [] => []
  | [p] => p
  | p :: q :: ps => p ++ sep :: joinSep sep (q :: ps)

theorem joinSep_splitOnChar (sep : Char) (cs : List Char) :
    joinSep sep (splitOnChar sep cs) = cs := by
  induction cs with
  | nil => simp [splitOnChar, joinSep]
  | cons c cs ih =>
    simp only [splitOnChar]
    rcases h : splitOnChar sep cs with _ | ⟨r, rs⟩
    · exact absurd h (splitOnChar_ne_nil sep cs)
    · rw [h] at ih
      by_cases hc : c = sep
      · subst hc
        simp only [if_pos rfl, joinSep]
        simp [ih]
      · simp only [if_neg hc]
        rcases rs with _ | ⟨r2, rs2⟩ <;> simpa [joinSep] using congrArg (c :: ·) ih

theorem splitOnChar_length (sep : Char) (cs : List Char) :
    (splitOnChar sep cs).length = cs.count sep + 1 := by
  induction cs with
  | nil => simp [splitOnChar]
  | cons c cs ih =>
    simp only [splitOnChar]
    rcases h : splitOnChar sep cs with _ | ⟨r, rs⟩
    · exact absurd h (splitOnChar_ne_nil sep cs)
    · rw [h] at ih
      by_cases hc : c = sep
      · subst hc
        simp only [if_pos rfl, List.length_cons, List.count_cons]
        simp at ih ⊢
        omega
      · simp only [if_neg hc, List.length_cons, List.count_cons]
        simp [hc] at ih ⊢
        omega

/-- `CurrencyConverter.is_number_str`: True when the text looks like a
(possibly signed) decimal number. -/
def is_number_str (number_text : String) : Bool :=
  match stripChars number_text.data with
  | [] => false
  | c :: rest =>
    -- optional sign
    let t := if c = '+' ∨ c = '-' then rest else c :: rest
    if t = [] then false
    -- at most one decimal point
    else if 1 < t.count '.' then false
    else if !t.any Char.isDigit then false
    else
      match splitOnChar '.' t with
      | [p] => pyIsDigitStr p
      | [l, r] => (l.isEmpty || pyIsDigitStr l) && (r.isEmpty || pyIsDigitStr r)
      | _ => false  -- unreachable: at most one '.' leaves at most two parts

/-- CPython `float()` on the signed decimal-literal fragment reachable from
the validated inputs, as an exact rational (binary rounding is not modelled;
exponent / inf / nan forms lie outside the fragment and map to `none`). -/
def pyFloatCore (t : List Char) : Option ℚ :=
  match t with
  | [] => none
  | c :: rest =>
    let neg : Bool := c = '-'
    let body := if c = '+' ∨ c = '-' then rest else c :: rest
    let val? : Option ℚ :=
      match splitOnChar '.' body with
      | [p] => if pyIsDigitStr p then some ((digitsToNat p : ℚ)) else none
      | [l, r] =>
        if (l.all Char.isDigit && r.all Char.isDigit) && !(l.isEmpty && r.isEmpty) then
          some ((digitsToNat l : ℚ) + (digitsToNat r : ℚ) / (10 : ℚ) ^ r.length)
        else none
      | _ => none
    val?.map (fun v => if neg then -v else v)

/-- CPython `float()` on a character list (it ignores surrounding whitespace). -/
def pyFloatOfChars (cs : List Char) : Option ℚ := pyFloatCore (stripChars cs)

/-- `CurrencyConverter.parse_amount`: `float(amount_text.strip())`. -/
def parse_amount (amount_text : String) : Option ℚ :=
  pyFloatOfChars (stripChars amount_text.data)

/-- `CurrencyConverter.is_valid_date_yyyy_mm_dd`. -/
def is_valid_date_yyyy_mm_dd (date_text : String) : Bool :=
  match splitOnChar '-' (stripChars date_text.data) with
  | [year_text, month_text, day_text] =>
    if year_text.length = 4 ∧ month_text.length = 2 ∧ day_text.length = 2 then
      if pyIsDigitStr year_text && pyIsDigitStr month_text && pyIsDigitStr day_text then
        let year := digitsToNat year_text
        let month := digitsToNat month_text
        let day := digitsToNat day_text
        if month < 1 ∨ 12 < month then false
        else
          let is_leap_year : Bool :=
            decide (year % 400 = 0) || (decide (year % 4 = 0) && !decide (year % 100 = 0))
          let feb_days := if is_leap_year then 29 else 28
          let month_days := [31, feb_days, 31, 30, 31, 30, 31, 31, 30, 31, 30, 31]
          -- month_days[month - 1]; the index is in range since 1 ≤ month ≤ 12
          decide (1 ≤ day) && decide (day ≤ month_days.getD (month - 1) 0)
      else false
    else false
  | _ => false

/-! ### Claim-side characterisations (stated from the spec's words, to be
compared with the source definitions above) -/

/-- Month lengths per the spec: February has 29 days iff the year is
divisible by 400, or by 4 but not by 100. -/
def monthLength (year month : Nat) : Nat :=
  match month with
  | 1 => 31
  | 2 => if year % 400 = 0 ∨ (year % 4 = 0 ∧ year % 100 ≠ 0) then 29 else 28
  | 3 => 31
  | 4 => 30
  | 5 => 31
  | 6 => 30
  | 7 => 31
  | 8 => 31
  | 9 => 30
  | 10 => 31
  | 11 => 30
  | 12 => 31
  | _ => 0

/-- The date-validator characterisation, following the claim's words:
after trimming, the text splits on '-' into exactly 3 all-digit parts of
widths 4/2/2, the month is in [1,12] and the day between 1 and the
length of that month. -/
def dateSpecAccepts (s : String) : Prop :=
  ∃ y m d : List Char,
    splitOnChar '-' (stripChars s.data) = [y, m, d] ∧
    y.length = 4 ∧ m.length = 2 ∧ d.length = 2 ∧
    pyIsDigitStr y = true ∧ pyIsDigitStr m = true ∧ pyIsDigitStr d = true ∧
    1 ≤ digitsToNat m ∧ digitsToNat m ≤ 12 ∧
    1 ≤ digitsToNat d ∧ digitsToNat d ≤ monthLength (digitsToNat y) (digitsToNat m)

/-- The numeric-check characterisation, following the claim's words:
after trimming and removing at most one leading sign, the remainder is
non-empty, has at most one '.', has at least one digit, and every
character on each side of the '.' (the whole string when no '.') is a
digit, either side being allowed to be empty. -/
def numberSpecAccepts (s : String) : Prop :=
  let t0 := stripChars s.data
  let t := match t0 with
           | [] => t0
           | c :: rest => if c = '+' ∨ c = '-' then rest else t0
  t ≠ [] ∧ t.count '.' ≤ 1 ∧ t.any Char.isDigit = true ∧
  ∀ part ∈ splitOnChar '.' t, part.all Char.isDigit = true

/-! ### Rate-provider wire model (`CurrencyAPIClient`) -/

/-- Decoded JSON values, as returned by `response.json()`. -/
inductive Json where
  | jnum (q : ℚ)
  | jstr (s : String)
  | jbool (b : Bool)
  | jnull
  | jarr (xs : List Json)
  | jobj (fields : List (String × Json))

/-- Python `str == json-value` for decoded JSON elements. -/
def jsonEqStr : Json → String → Bool
  | .jstr s, k => s == k
  | _, _ => false

/-- `needle` occurs as a contiguous run inside `hay`. -/
def listHasRun (needle : List Char) : List Char → Bool
  | [] => needle.isEmpty
  | c :: rest => needle.isPrefixOf (c :: rest) || listHasRun needle rest

/-- Python `key in value` (membership test): key lookup on dicts,
element equality on lists, substring test on strings; raises
`TypeError` for non-container values. -/
def jsonHasKey : Json → String → Except String Bool
  | .jobj fs, k => .ok (fs.any (fun kv => kv.1 == k))
  | .jarr xs, k => .ok (xs.any (fun v => jsonEqStr v k))
  | .jstr s, k => .ok (listHasRun k.data s.data)
  | _, _ => .error "TypeError"

/-- Python `value[key]` with a string key: dict lookup (`KeyError` when
missing); `TypeError` on every other JSON value. -/
def jsonIndex : Json → String → Except String Json
  | .jobj fs, k =>
    match fs.find? (fun kv => kv.1 == k) with
    | some kv => .ok kv.2
    | none => .error "KeyError"
  | _, _ => .error "TypeError"

/-- Python `value.get(key, dflt)`: only dicts have `.get`. -/
def jsonGetD (v : Json) (k : String) (dflt : Json) : Except String Json :=
  match v with
  | .jobj fs =>
    match fs.find? (fun kv => kv.1 == k) with
    | some kv => .ok kv.2
    | none => .ok dflt
  | _ => .error "AttributeError"

/-- Python `float(x)` on a decoded JSON value (rationals for floats; the
string case covers the decimal-literal fragment). -/
def pyFloatOfJson : Json → Except String ℚ
  | .jnum q => .ok q
  | .jbool b => .ok (if b then 1 else 0)
  | .jstr s =>
    match pyFloatOfChars s.data with
    | some q => .ok q
    | none => .error "ValueError"
  | _ => .error "TypeError"

/-- `CurrencyAPIClient.fetch_latest_rate` over the decoded response of
`http_get_json` (`none` models the network / HTTP / JSON-decode errors it
catches).  `.ok none` is the "unavailable" sentinel `(None, None)`;
`.error e` models an exception of type `e` escaping to the caller. -/
def fetch_latest_rate (resp : Option Json) (target_currency_code : String) :
    Except String (Option (ℚ × Json)) :=
  match resp with
  | none => .ok none
  | some data => do
    let hasRates ← jsonHasKey data "rates"
    if hasRates = false then
      return none
    else
      let rates ← jsonIndex data "rates"
      let hasTarget ← jsonHasKey rates target_currency_code
      if hasTarget = false then
        return none
      else
        let v ← jsonIndex rates target_currency_code
        let q ← pyFloatOfJson v
        let dateVal ← jsonGetD data "date" (.jstr "")
        return some (q, dateVal)

/-- `CurrencyAPIClient.fetch_rate_on_date`; identical to
`fetch_latest_rate` except that the `date` default is the requested
date. -/
def fetch_rate_on_date (resp : Option Json) (target_currency_code : String)
    (date_text : String) : Except String (Option (ℚ × Json)) :=
  match resp with
  | none => .ok none
  | some data => do
    let hasRates ← jsonHasKey data "rates"
    if hasRates = false then
      return none
    else
      let rates ← jsonIndex data "rates"
      let hasTarget ← jsonHasKey rates target_currency_code
      if hasTarget = false then
        return none
      else
        let v ← jsonIndex rates target_currency_code
        let q ← pyFloatOfJson v
        let dateVal ← jsonGetD data "date" (.jstr date_text)
        return some (q, dateVal)

/-! ### Currency registry (`load_supported_currencies`) -/

/-- The built-in fallback currency set, in its literal (insertion)
order. -/
def fallback_currencies : List (String × String) :=
  [("USD", "US Dollar"), ("EUR", "Euro"), ("THB", "Thai Baht"),
   ("JPY", "Japanese Yen"), ("GBP", "British Pound")]

/-- Python `(k1, v1) <= (k2, v2)` on pairs of strings: lexicographic
tuple comparison, strings ordered by code point. -/
def pairLe (a b : String × String) : Bool :=
  decide (a.1.data < b.1.data) ||
    (a.1 == b.1 && decide (a.2.data ≤ b.2.data))

/-- `CurrencyConverter.load_supported_currencies`: the registry built
from the decoded `/currencies` response (`none` when unavailable):
`dict(sorted(data.items()))`, or the fallback dict in its literal
order. -/
def load_supported_currencies (resp : Option (List (String × String))) :
    List (String × String) :=
  match resp with
  | some data => data.mergeSort pairLe
  | none => fallback_currencies

/-- `CurrencyConverter.is_valid_currency_code` (including its
`None` guard). -/
def is_valid_currency_code (currencies : List (String × String)) :
    Option String → Bool
  | none => false
  | some currency_code_text =>
    let code := stripUpper currency_code_text
    decide (code.length = 3) && pyIsAlpha code.data &&
      currencies.any (fun kv => kv.1 == code)

/-! ### Bounded-retry prompt protocol -/

/-- Observable outcome of `_prompt_currency_code`: the returned value,
the index just past the last consumed input (so `nextPos - pos` is the
number of prompt invocations), how often the code validator ran, and how
many attempts were counted as failed. -/
structure CodePromptOut where
  result : Option String
  nextPos : Nat
  validatorCalls : Nat
  attemptsUsed : Nat
deriving DecidableEq

/-- The `while attempts < 3` loop of `_prompt_currency_code`, with
`fuel = 3 - attempts` failed attempts still allowed; `inputs` is the
stream of raw input lines and `pos` the index of the next line. -/
def promptCurrencyCodeAux (valid : String → Bool) (allow_empty : Bool)
    (default : Option String) (treat_empty_as_cancel : Bool)
    (inputs : Nat → String) : Nat → Nat → CodePromptOut
  | pos, 0 => ⟨none, pos, 0, 0⟩
  | pos, fuel + 1 =>
    let code := stripUpper (inputs pos)
    if code = "" then
      if allow_empty = true ∧ default ≠ none then
        ⟨default, pos + 1, 0, 0⟩
      else if treat_empty_as_cancel then
        ⟨none, pos + 1, 0, 0⟩
      else
        let r := promptCurrencyCodeAux valid allow_empty default
          treat_empty_as_cancel inputs (pos + 1) fuel
        ⟨r.result, r.nextPos, r.validatorCalls, r.attemptsUsed + 1⟩
    else if valid code then
      ⟨some code, pos + 1, 1, 0⟩
    else
      let r := promptCurrencyCodeAux valid allow_empty default
        treat_empty_as_cancel inputs (pos + 1) fuel
      ⟨r.result, r.nextPos, r.validatorCalls + 1, r.attemptsUsed + 1⟩

/-- `CurrencyConverter._prompt_currency_code`. -/
def prompt_currency_code (valid : String → Bool) (allow_empty : Bool)
    (default : Option String) (treat_empty_as_cancel : Bool)
    (inputs : Nat → String) (pos : Nat) : CodePromptOut :=
  promptCurrencyCodeAux valid allow_empty default treat_empty_as_cancel inputs pos 3

/-- The `while attempts < 3` loop of `_prompt_amount`. -/
def promptAmountAux (inputs : Nat → String) : Nat → Nat → Option ℚ × Nat
  | pos, 0 => (none, pos)
  | pos, fuel + 1 =>
    let text := pyStrip (inputs pos)
    if text = "" then
      promptAmountAux inputs (pos + 1) fuel
    else if !is_number_str text then
      promptAmountAux inputs (pos + 1) fuel
    else
      match parse_amount text with
      | some value =>
        if value < 0 then promptAmountAux inputs (pos + 1) fuel
        else (some value, pos + 1)
      | none =>
        -- unreachable: `parse_amount` succeeds whenever `is_number_str`
        -- holds (proved below); in Python a failure here would raise
        (none, pos + 1)

/-- `CurrencyConverter._prompt_amount` (`none` = cancelled). -/
def prompt_amount (inputs : Nat → String) (pos : Nat) : Option ℚ × Nat :=
  promptAmountAux inputs pos 3

/-- The `while attempts < 3` loop of `_prompt_date_or_latest`. -/
def promptDateAux (inputs : Nat → String) : Nat → Nat → Option String × Nat
  | pos, 0 => (none, pos)
  | pos, fuel + 1 =>
    let text := pyStrip (inputs pos)
    if text = "" then (some "", pos + 1)
    else if is_valid_date_yyyy_mm_dd text then (some text, pos + 1)
    else promptDateAux inputs (pos + 1) fuel

/-- `CurrencyConverter._prompt_date_or_latest`
(`some ""` = use the latest rate, `none` = cancelled). -/
def prompt_date_or_latest (inputs : Nat → String) (pos : Nat) :
    Option String × Nat :=
  promptDateAux inputs pos 3

/-! ### Conversion / rate-lookup orchestrators -/

/-- The abstract `RateProvider` collaborator together with the decoded
`/currencies` response used by `load_supported_currencies`; `none` is the
"unavailable" sentinel `(None, None)`. -/
structure Provider where
  currenciesResp : Option (List (String × String))
  latest : String → String → Option (ℚ × String)
  onDate : String → String → String → Option (ℚ × String)

/-- A rate-provider call made by an action. -/
inductive ProviderCall where
  | latest (base target : String)
  | onDate (base target date : String)
deriving DecidableEq

def Provider.callResult (p : Provider) : ProviderCall → Option (ℚ × String)
  | .latest b t => p.latest b t
  | .onDate b t d => p.onDate b t d

/-- Mutable converter state (`base_currency`, `currencies`). -/
structure ConvState where
  base_currency : String
  currencies : List (String × String)

/-- `CurrencyConverter.__init__`: the base currency starts as "USD" and
the registry is loaded once. -/
def ConvState.init (p : Provider) : ConvState :=
  ⟨"USD", load_supported_currencies p.currenciesResp⟩

/-- The `if not self.currencies: self.load_supported_currencies()` step
at the head of each action. -/
def effCurrencies (st : ConvState) (p : Provider) : List (String × String) :=
  if st.currencies = [] then load_supported_currencies p.currenciesResp
  else st.currencies

/-- Content of the success audit line of `convert_currency_amount`
("Converted {amount} {source} to {converted} {target} (rate=…, date=…)"). -/
structure AuditEvent where
  amount : ℚ
  source : String
  converted : ℚ
  target : String
  rate : ℚ
  rateDate : String
deriving DecidableEq

/-- User-visible result of `convert_currency_amount`. -/
inductive ConvertResult where
  | cancelled
  | sameCurrency
  | rateUnavailable
  | success (amount converted rate : ℚ) (rateDate : String)
deriving DecidableEq

/-- Observable outcome of one `convert_currency_amount` action. -/
structure ConvertOut where
  result : ConvertResult
  providerCalls : List ProviderCall
  auditLog : List AuditEvent
deriving DecidableEq

/-- `CurrencyConverter.convert_currency_amount` as a function of the
converter state, the provider and the input stream. -/
def convert_currency_amount (st : ConvState) (p : Provider)
    (inputs : Nat → String) (pos : Nat) : ConvertOut :=
  let currencies := effCurrencies st p
  let valid := fun c => is_valid_currency_code currencies (some c)
  let o1 := prompt_currency_code valid true (some st.base_currency) false inputs pos
  match o1.result with
  | none => ⟨.cancelled, [], []⟩
  | some source_currency_code =>
    let o2 := prompt_currency_code valid false none false inputs o1.nextPos
    match o2.result with
    | none => ⟨.cancelled, [], []⟩
    | some target_currency_code =>
      if source_currency_code = target_currency_code then
        ⟨.sameCurrency, [], []⟩
      else
        let o3 := prompt_amount inputs o2.nextPos
        match o3.1 with
        | none => ⟨.cancelled, [], []⟩
        | some amount =>
          let o4 := prompt_date_or_latest inputs o3.2
          match o4.1 with
          | none => ⟨.cancelled, [], []⟩
          | some date_text =>
            let call :=
              if date_text = "" then
                ProviderCall.latest source_currency_code target_currency_code
              else
                ProviderCall.onDate source_currency_code target_currency_code date_text
            match p.callResult call with
            | none => ⟨.rateUnavailable, [call], []⟩
            | some (rate, rate_date) =>
              let converted_amount := amount * rate
              ⟨.success amount converted_amount rate rate_date, [call],
               [⟨amount, source_currency_code, converted_amount,
                 target_currency_code, rate, rate_date⟩]⟩

/-- Content of the audit line of `get_exchange_rate_cli`
("Rate checked: base->target (date=…, rate=…)"). -/
structure RateAudit where
  base : String
  target : String
  rateDate : String
  rate : ℚ
deriving DecidableEq

/-- User-visible result of `get_exchange_rate_cli`. -/
inductive RateResult where
  | cancelled
  | rateUnavailable
  | shown (rate : ℚ) (rateDate : String)
deriving DecidableEq

/-- Observable outcome of one `get_exchange_rate_cli` action. -/
structure RateOut where
  result : RateResult
  providerCalls : List ProviderCall
  auditLog : List RateAudit
deriving DecidableEq

/-- `CurrencyConverter.get_exchange_rate_cli`.  Note: this action has no
source-equals-target short-circuit in the source. -/
def get_exchange_rate_cli (st : ConvState) (p : Provider)
    (inputs : Nat → String) (pos : Nat) : RateOut :=
  let currencies := effCurrencies st p
  let valid := fun c => is_valid_currency_code currencies (some c)
  let o1 := prompt_currency_code valid true (some st.base_currency) false inputs pos
  match o1.result with
  | none => ⟨.cancelled, [], []⟩
  | some base_code =>
    let o2 := prompt_currency_code valid false none false inputs o1.nextPos
    match o2.result with
    | none => ⟨.cancelled, [], []⟩
    | some target_code =>
      let o3 := prompt_date_or_latest inputs o2.nextPos
      match o3.1 with
      | none => ⟨.cancelled, [], []⟩
      | some date_text =>
        let call :=
          if date_text = "" then ProviderCall.latest base_code target_code
          else ProviderCall.onDate base_code target_code date_text
        match p.callResult call with
        | none => ⟨.rateUnavailable, [call], []⟩
        | some (rate, api_date) =>
          ⟨.shown rate api_date, [call], [⟨base_code, target_code, api_date, rate⟩]⟩

/-- `CurrencyConverter.set_base_currency`: the converter state after the
action (the registry reload included). -/
def set_base_currency (st : ConvState) (p : Provider)
    (inputs : Nat → String) (pos : Nat) : ConvState :=
  let currencies := effCurrencies st p
  let valid := fun c => is_valid_currency_code currencies (some c)
  let o := prompt_currency_code valid false none true inputs pos
  match o.result with
  | none => ⟨st.base_currency, currencies⟩
  | some code => ⟨code, currencies⟩

/-! ### Lemmas about trimming -/

theorem dropWhile_first_false {α : Type} (p : α → Bool) :
    ∀ (l : List α) (a : α) (as : List α), l.dropWhile p = a :: as → p a = false := by
  intro l
  induction l with
  | nil => intro a as h; simp [List.dropWhile] at h
  | cons c cs ih =>
    intro a as h
    by_cases hc : p c = true
    · rw [List.dropWhile_cons, if_pos hc] at h
      exact ih a as h
    · rw [List.dropWhile_cons, if_neg hc] at h
      cases h
      simpa using hc

theorem dropWhile_eq_self_of_first {α : Type} (p : α → Bool) (l : List α)
    (h : ∀ a as, l = a :: as → p a = false) : l.dropWhile p = l := by
  cases l with
  | nil => rfl
  | cons c cs => simp [List.dropWhile_cons, h c cs rfl]

theorem dropWhile_dropWhile {α : Type} (p : α → Bool) (l : List α) :
    (l.dropWhile p).dropWhile p = l.dropWhile p :=
  dropWhile_eq_self_of_first p _ (fun a as h => dropWhile_first_false p l a as h)

theorem dropWhile_exists_append {α : Type} (p : α → Bool) (l : List α) :
    ∃ t, t ++ l.dropWhile p = l := by
  induction l with
  | nil => exact ⟨[], rfl⟩
  | cons c cs ih =>
    by_cases hc : p c = true
    · obtain ⟨t, ht⟩ := ih
      exact ⟨c :: t, by simp [List.dropWhile_cons, hc, ht]⟩
    · exact ⟨[], by simp [List.dropWhile_cons, hc]⟩

theorem dropWhile_rev_core {α : Type} (p : α → Bool) (u : List α)
    (hu : ∀ a as, u = a :: as → p a = false) :
    ((u.reverse.dropWhile p).reverse).dropWhile p
      = (u.reverse.dropWhile p).reverse := by
  apply dropWhile_eq_self_of_first
  intro a as h
  obtain ⟨t, ht⟩ := dropWhile_exists_append p u.reverse
  have hu2 : (u.reverse.dropWhile p).reverse ++ t.reverse = u := by
    have h2 := congrArg List.reverse ht
    simpa [List.reverse_append] using h2
  rw [h] at hu2
  exact hu a (as ++ t.reverse) (by simpa using hu2.symm)

theorem stripChars_idem (cs : List Char) :
    stripChars (stripChars cs) = stripChars cs := by
  unfold stripChars
  have h1 : (((cs.dropWhile Char.isWhitespace).reverse.dropWhile
        Char.isWhitespace).reverse).dropWhile Char.isWhitespace
      = ((cs.dropWhile Char.isWhitespace).reverse.dropWhile
        Char.isWhitespace).reverse :=
    dropWhile_rev_core _ _ (fun a as h => dropWhile_first_false _ cs a as h)
  rw [h1, List.reverse_reverse, dropWhile_dropWhile]

theorem dropWhile_append_of_all {α : Type} (p : α → Bool) (w l : List α)
    (hw : ∀ a ∈ w, p a = true) : (w ++ l).dropWhile p = l.dropWhile p := by
  rw [List.dropWhile_append, List.dropWhile_eq_nil_iff.2 hw]
  simp

theorem stripChars_ws_left (w s : List Char)
    (hw : ∀ c ∈ w, c.isWhitespace = true) :
    stripChars (w ++ s) = stripChars s := by
  unfold stripChars
  rw [dropWhile_append_of_all _ w s hw]

theorem stripChars_ws_right (s w : List Char)
    (hw : ∀ c ∈ w, c.isWhitespace = true) :
    stripChars (s ++ w) = stripChars s := by
  unfold stripChars
  rcases h : s.dropWhile Char.isWhitespace with _ | ⟨a, u⟩
  · rw [List.dropWhile_append, h]
    simp only [List.isEmpty_nil, if_pos rfl]
    rw [List.dropWhile_eq_nil_iff.2 hw]
    simp
  · rw [List.dropWhile_append, h]
    simp only [List.isEmpty_cons, Bool.false_eq_true, if_false]
    rw [List.reverse_append, dropWhile_append_of_all _ w.reverse _ (by simpa using hw)]

theorem stripChars_ws_both (w1 s w2 : List Char)
    (h1 : ∀ c ∈ w1, c.isWhitespace = true)
    (h2 : ∀ c ∈ w2, c.isWhitespace = true) :
    stripChars (w1 ++ s ++ w2) = stripChars s := by
  rw [List.append_assoc, stripChars_ws_left _ _ h1, stripChars_ws_right _ _ h2]

/-! ### Totality of `parse_amount` on validated input, and trim invariance -/

theorem all_digit_of_empty_or_digitStr (l : List Char)
    (h : (l.isEmpty || pyIsDigitStr l) = true) : l.all Char.isDigit = true := by
  cases l with
  | nil => rfl
  | cons a as => simpa [pyIsDigitStr] using h

theorem isSome_map_eq {α β : Type} (o : Option α) (f : α → β) :
    (o.map f).isSome = o.isSome := by cases o <;> rfl

theorem floatVal_isSome (t : List Char)
    (h : (if t = [] then false
          else if 1 < t.count '.' then false
          else if !t.any Char.isDigit then false
          else
            match splitOnChar '.' t with
            | [p] => pyIsDigitStr p
            | [l, r] => (l.isEmpty || pyIsDigitStr l) && (r.isEmpty || pyIsDigitStr r)
            | _ => false) = true) :
    (match splitOnChar '.' t with
     | [p] => if pyIsDigitStr p then some ((digitsToNat p : ℚ)) else none
     | [l, r] =>
       if (l.all Char.isDigit && r.all Char.isDigit) && !(l.isEmpty && r.isEmpty) then
         some ((digitsToNat l : ℚ) + (digitsToNat r : ℚ) / (10 : ℚ) ^ r.length)
       else none
     | _ => none).isSome = true := by
  by_cases h1 : t = []
  · rw [if_pos h1] at h; exact absurd h (by simp)
  rw [if_neg h1] at h
  by_cases h2 : 1 < t.count '.'
  · rw [if_pos h2] at h; exact absurd h (by simp)
  rw [if_neg h2] at h
  by_cases h3 : t.any Char.isDigit = true
  · rw [h3] at h
    simp only [Bool.not_true, Bool.false_eq_true, if_false] at h
    rcases hsp : splitOnChar '.' t with _ | ⟨p, ps⟩
    · exact absurd hsp (splitOnChar_ne_nil _ t)
    rcases ps with _ | ⟨q, qs⟩
    · rw [hsp] at h
      have hp : pyIsDigitStr p = true := h
      simp [hsp, hp]
    rcases qs with _ | ⟨r3, rs3⟩
    · rw [hsp] at h
      have h4 : (p.isEmpty || pyIsDigitStr p) = true ∧ (q.isEmpty || pyIsDigitStr q) = true := by
        simpa using h
      have hp := all_digit_of_empty_or_digitStr p h4.1
      have hq := all_digit_of_empty_or_digitStr q h4.2
      have hjoin : p ++ '.' :: q = t := by
        have hj := joinSep_splitOnChar '.' t
        rw [hsp] at hj
        simpa [joinSep] using hj
      have hne : (p.isEmpty && q.isEmpty) = false := by
        rcases p with _ | ⟨a, as⟩
        · rcases q with _ | ⟨b, bs⟩
          · rw [← hjoin] at h3
            simp at h3
          · simp
        · simp
      simp [hsp, hp, hq, hne]
    · rw [hsp] at h
      simp at h
  · simp only [Bool.not_eq_true] at h3
    rw [h3] at h
    exact absurd h (by simp)

theorem parse_amount_isSome_of_is_number_str (s : String)
    (h : is_number_str s = true) : (parse_amount s).isSome = true := by
  unfold is_number_str at h
  unfold parse_amount pyFloatOfChars
  rw [stripChars_idem]
  rcases hts : stripChars s.data with _ | ⟨c, rest⟩
  · rw [hts] at h; exact absurd h (by simp)
  · rw [hts] at h
    unfold pyFloatCore
    simp only at h ⊢
    rw [isSome_map_eq]
    by_cases hsign : c = '+' ∨ c = '-'
    · simp only [if_pos hsign] at h ⊢
      exact floatVal_isSome rest h
    · simp only [if_neg hsign] at h ⊢
      exact floatVal_isSome (c :: rest) h

/-- C7: for every string accepted by the numeric well-formedness check,
`parse_amount` succeeds (returns a value), and the parsed value is
invariant under adding or removing surrounding whitespace:
`parse_amount (w1 ++ s ++ w2) = parse_amount s` for all whitespace
strings `w1`, `w2`. -/
theorem C7_parse_amount_total_and_trim_invariant (s : String)
    (h : is_number_str s = true) :
    (parse_amount s).isSome = true ∧
    ∀ w1 w2 : String, (∀ c ∈ w1.data, c.isWhitespace = true) →
      (∀ c ∈ w2.data, c.isWhitespace = true) →
      parse_amount (w1 ++ s ++ w2) = parse_amount s := by
  refine ⟨parse_amount_isSome_of_is_number_str s h, ?_⟩
  intro w1 w2 h1 h2
  unfold parse_amount
  rw [String.data_append, String.data_append,
    stripChars_ws_both w1.data s.data w2.data h1 h2]

/-- C7 witness: the theorem applied at s = "12.5", w1 = " ", w2 = tab. -/
theorem C7_parse_amount_witness :
    (parse_amount "12.5").isSome = true ∧
    parse_amount (" " ++ "12.5" ++ "\t") = parse_amount "12.5" := by
  have h := C7_parse_amount_total_and_trim_invariant "12.5" (by decide)
  exact ⟨h.1, h.2 " " "\t" (by decide) (by decide)⟩

/-! ### C4: characterisation of the numeric well-formedness check -/

theorem emptyOrDigit_eq_all (l : List Char) :
    (l.isEmpty || pyIsDigitStr l) = l.all Char.isDigit := by
  cases l with
  | nil => rfl
  | cons a as => simp [pyIsDigitStr]

theorem number_core_iff (t : List Char) :
    (if t = [] then false
     else if 1 < t.count '.' then false
     else if !t.any Char.isDigit then false
     else
       match splitOnChar '.' t with
       | [p] => pyIsDigitStr p
       | [l, r] => (l.isEmpty || pyIsDigitStr l) && (r.isEmpty || pyIsDigitStr r)
       | _ => false) = true
    ↔ (t ≠ [] ∧ t.count '.' ≤ 1 ∧ t.any Char.isDigit = true ∧
       ∀ part ∈ splitOnChar '.' t, part.all Char.isDigit = true) := by
  by_cases h1 : t = []
  · simp [h1]
  rw [if_neg h1]
  by_cases h2 : 1 < t.count '.'
  · rw [if_pos h2]
    simp only [Bool.false_eq_true, false_iff]
    rintro ⟨-, hcount, -, -⟩
    omega
  rw [if_neg h2]
  by_cases h3 : t.any Char.isDigit = true
  · rw [h3]
    simp only [Bool.not_true, Bool.false_eq_true, if_false]
    have hlen := splitOnChar_length '.' t
    rcases hsp : splitOnChar '.' t with _ | ⟨p, ps⟩
    · exact absurd hsp (splitOnChar_ne_nil _ t)
    rcases ps with _ | ⟨q, qs⟩
    · have hpt : p = t := by
        have hj := joinSep_splitOnChar '.' t
        rw [hsp] at hj
        simpa [joinSep] using hj
      rcases p with _ | ⟨a, as⟩
      · exact absurd hpt (by simpa using (Ne.symm h1))
      · constructor
        · intro hcode
          have hc : pyIsDigitStr (a :: as) = true := hcode
          refine ⟨h1, Nat.le_of_not_lt h2, trivial, ?_⟩
          intro part hpart
          rw [List.mem_singleton] at hpart
          subst hpart
          simpa [pyIsDigitStr] using hc
        · rintro ⟨-, -, -, hall⟩
          have := hall (a :: as) (List.mem_singleton.mpr rfl)
          show pyIsDigitStr (a :: as) = true
          simpa [pyIsDigitStr] using this
    rcases qs with _ | ⟨r3, rs3⟩
    · constructor
      · intro hcode
        have hc : ((p.isEmpty || pyIsDigitStr p) && (q.isEmpty || pyIsDigitStr q)) = true := hcode
        rw [emptyOrDigit_eq_all, emptyOrDigit_eq_all] at hc
        obtain ⟨hc1, hc2⟩ : p.all Char.isDigit = true ∧ q.all Char.isDigit = true := by
          simpa using hc
        refine ⟨h1, Nat.le_of_not_lt h2, trivial, ?_⟩
        intro part hpart
        rcases List.mem_cons.mp hpart with hh | hh
        · subst hh; exact hc1
        · rw [List.mem_singleton] at hh
          subst hh; exact hc2
      · rintro ⟨-, -, -, hall⟩
        show ((p.isEmpty || pyIsDigitStr p) && (q.isEmpty || pyIsDigitStr q)) = true
        rw [emptyOrDigit_eq_all, emptyOrDigit_eq_all]
        have h5 := hall p (by simp)
        have h6 := hall q (by simp)
        simp [h5, h6]
    · rw [hsp] at hlen
      constructor
      · intro hcode
        simp at hcode
      · rintro ⟨-, hcount, -, -⟩
        simp only [List.length_cons] at hlen
        omega
  · simp only [Bool.not_eq_true] at h3
    rw [h3]
    simp only [Bool.not_false, if_true, Bool.false_eq_true, false_iff]
    rintro ⟨-, -, hany, -⟩
    exact hany

/-- C4: the numeric well-formedness check accepts a string exactly when,
after trimming and removing at most one leading sign, the remainder is
non-empty, has at most one '.', has at least one digit and is all digits
on each side of the '.' (sides may individually be empty); in particular
the empty string, a lone sign, a lone '.' and strings with two '.' are
rejected. -/
theorem C4_is_number_str_characterisation :
    (∀ s : String, is_number_str s = true ↔ numberSpecAccepts s) ∧
    is_number_str "" = false ∧ is_number_str "+" = false ∧
    is_number_str "-" = false ∧ is_number_str "." = false ∧
    is_number_str "1..2" = false := by
  refine ⟨?_, by decide, by decide, by decide, by decide, by decide⟩
  intro s
  unfold is_number_str numberSpecAccepts
  rcases hts : stripChars s.data with _ | ⟨c, rest⟩
  · simp
  · simp only
    by_cases hsign : c = '+' ∨ c = '-'
    · simp only [if_pos hsign]
      exact number_core_iff rest
    · simp only [if_neg hsign]
      exact number_core_iff (c :: rest)

/-! ### C3: characterisation of the date validator -/

theorem stripChars_eq_self (cs : List Char)
    (h : ∀ c ∈ cs, c.isWhitespace = false) : stripChars cs = cs := by
  unfold stripChars
  have h1 : cs.dropWhile Char.isWhitespace = cs := by
    apply dropWhile_eq_self_of_first
    intro a as ha
    exact h a (by rw [ha]; exact List.mem_cons_self a as)
  rw [h1]
  have h2 : cs.reverse.dropWhile Char.isWhitespace = cs.reverse := by
    apply dropWhile_eq_self_of_first
    intro a as ha
    exact h a (List.mem_reverse.mp (by rw [ha]; exact List.mem_cons_self a as))
  rw [h2, List.reverse_reverse]

theorem splitOnChar_eq_single (sep : Char) (a : List Char) (h : sep ∉ a) :
    splitOnChar sep a = [a] := by
  induction a with
  | nil => rfl
  | cons x xs ih =>
    have hx : x ≠ sep := fun hh => h (hh ▸ List.mem_cons_self x xs)
    have hxs : sep ∉ xs := fun hh => h (List.mem_cons_of_mem x hh)
    simp only [splitOnChar, ih hxs, if_neg hx]

theorem splitOnChar_append (sep : Char) (a rest : List Char) (h : sep ∉ a) :
    splitOnChar sep (a ++ sep :: rest) = a :: splitOnChar sep rest := by
  induction a with
  | nil =>
    simp only [List.nil_append, splitOnChar]
    rcases hr : splitOnChar sep rest with _ | ⟨r, rs⟩
    · exact absurd hr (splitOnChar_ne_nil sep rest)
    · simp
  | cons x xs ih =>
    have hx : x ≠ sep := fun hh => h (hh ▸ List.mem_cons_self x xs)
    have hxs : sep ∉ xs := fun hh => h (List.mem_cons_of_mem x hh)
    simp only [List.cons_append, splitOnChar, List.append_eq, ih hxs, if_neg hx]

/-- The digit character for `k ≤ 9`. -/
def natDigit (k : Nat) : Char := Char.ofNat (48 + k)

/-- Two-digit zero-padded rendering of `n ≤ 99`. -/
def render2 (n : Nat) : List Char := [natDigit (n / 10 % 10), natDigit (n % 10)]

/-- Four-digit zero-padded rendering of `n ≤ 9999`. -/
def render4 (n : Nat) : List Char :=
  [natDigit (n / 1000 % 10), natDigit (n / 100 % 10),
   natDigit (n / 10 % 10), natDigit (n % 10)]

/-- The canonical `YYYY-MM-DD` rendering of a numeric date. -/
def renderDate (y m d : Nat) : String :=
  ⟨render4 y ++ '-' :: (render2 m ++ '-' :: render2 d)⟩

theorem natDigit_isDigit (k : Nat) (h : k ≤ 9) : (natDigit k).isDigit = true := by
  interval_cases k <;> decide

theorem natDigit_not_ws (k : Nat) (h : k ≤ 9) :
    (natDigit k).isWhitespace = false := by
  interval_cases k <;> decide

theorem natDigit_ne_dash (k : Nat) (h : k ≤ 9) : natDigit k ≠ '-' := by
  interval_cases k <;> decide

theorem natDigit_toNat (k : Nat) (h : k ≤ 9) : (natDigit k).toNat - 48 = k := by
  interval_cases k <;> decide

theorem digitsToNat_render2 (n : Nat) (h : n ≤ 99) :
    digitsToNat (render2 n) = n := by
  unfold digitsToNat render2
  simp only [List.foldl_cons, List.foldl_nil]
  rw [natDigit_toNat _ (by omega), natDigit_toNat _ (by omega)]
  omega

theorem digitsToNat_render4 (n : Nat) (h : n ≤ 9999) :
    digitsToNat (render4 n) = n := by
  unfold digitsToNat render4
  simp only [List.foldl_cons, List.foldl_nil]
  rw [natDigit_toNat _ (by omega), natDigit_toNat _ (by omega),
    natDigit_toNat _ (by omega), natDigit_toNat _ (by omega)]
  omega

theorem pyIsDigitStr_render2 (n : Nat) : pyIsDigitStr (render2 n) = true := by
  unfold pyIsDigitStr render2
  simp [natDigit_isDigit _ (Nat.le_of_lt_succ (Nat.mod_lt _ (by omega)))]

theorem pyIsDigitStr_render4 (n : Nat) : pyIsDigitStr (render4 n) = true := by
  unfold pyIsDigitStr render4
  simp [natDigit_isDigit _ (Nat.le_of_lt_succ (Nat.mod_lt _ (by omega)))]

theorem dash_not_mem_render2 (n : Nat) : '-' ∉ render2 n := by
  unfold render2
  intro h
  rcases List.mem_cons.mp h with hh | hh
  · exact natDigit_ne_dash _ (Nat.le_of_lt_succ (Nat.mod_lt _ (by omega))) hh.symm
  · rw [List.mem_singleton] at hh
    exact natDigit_ne_dash _ (Nat.le_of_lt_succ (Nat.mod_lt _ (by omega))) hh.symm

theorem dash_not_mem_render4 (n : Nat) : '-' ∉ render4 n := by
  unfold render4
  intro h
  have hd : ∀ k, k ≤ 9 → '-' ≠ natDigit k :=
    fun k hk hh => natDigit_ne_dash k hk hh.symm
  rcases List.mem_cons.mp h with hh | h
  · exact hd _ (Nat.le_of_lt_succ (Nat.mod_lt _ (by omega))) hh
  rcases List.mem_cons.mp h with hh | h
  · exact hd _ (Nat.le_of_lt_succ (Nat.mod_lt _ (by omega))) hh
  rcases List.mem_cons.mp h with hh | h
  · exact hd _ (Nat.le_of_lt_succ (Nat.mod_lt _ (by omega))) hh
  · rw [List.mem_singleton] at h
    exact hd _ (Nat.le_of_lt_succ (Nat.mod_lt _ (by omega))) h

theorem renderDate_no_ws (y m d : Nat) :
    ∀ c ∈ (renderDate y m d).data, c.isWhitespace = false := by
  intro c hc
  have hlist : (renderDate y m d).data
      = [natDigit (y / 1000 % 10), natDigit (y / 100 % 10), natDigit (y / 10 % 10),
         natDigit (y % 10), '-', natDigit (m / 10 % 10), natDigit (m % 10), '-',
         natDigit (d / 10 % 10), natDigit (d % 10)] := rfl
  rw [hlist] at hc
  simp only [List.mem_cons, List.not_mem_nil, or_false] at hc
  rcases hc with h | h | h | h | h | h | h | h | h | h <;> subst h
  all_goals first
    | decide
    | exact natDigit_not_ws _ (Nat.le_of_lt_succ (Nat.mod_lt _ (by omega)))

theorem splitOnChar_renderDate (y m d : Nat) :
    splitOnChar '-' (stripChars (renderDate y m d).data)
      = [render4 y, render2 m, render2 d] := by
  have hdata : (renderDate y m d).data
      = render4 y ++ '-' :: (render2 m ++ '-' :: render2 d) := rfl
  rw [stripChars_eq_self _ (renderDate_no_ws y m d), hdata,
    splitOnChar_append _ _ _ (dash_not_mem_render4 y),
    splitOnChar_append _ _ _ (dash_not_mem_render2 m),
    splitOnChar_eq_single _ _ (dash_not_mem_render2 d)]

theorem monthLength_le_31 (y m : Nat) : monthLength y m ≤ 31 := by
  unfold monthLength
  split <;> first | omega | (split <;> omega)

theorem monthDays_getD_eq (year month : Nat) (h1 : 1 ≤ month) (h2 : month ≤ 12) :
    ([31,
      if (decide (year % 400 = 0) || (decide (year % 4 = 0) && !decide (year % 100 = 0))) = true
      then 29 else 28,
      31, 30, 31, 30, 31, 31, 30, 31, 30, 31] : List Nat).getD (month - 1) 0
      = monthLength year month := by
  interval_cases month <;>
    simp [monthLength, Bool.or_eq_true, Bool.and_eq_true, decide_eq_true_eq,
      Bool.not_eq_true', decide_eq_false_iff_not]

theorem date_core_iff (a b c2 : List Char) :
    (if a.length = 4 ∧ b.length = 2 ∧ c2.length = 2 then
      if pyIsDigitStr a && pyIsDigitStr b && pyIsDigitStr c2 then
        if digitsToNat b < 1 ∨ 12 < digitsToNat b then false
        else
          decide (1 ≤ digitsToNat c2) &&
            decide (digitsToNat c2 ≤
              ([31,
                if (decide (digitsToNat a % 400 = 0) ||
                    (decide (digitsToNat a % 4 = 0) && !decide (digitsToNat a % 100 = 0))) = true
                then 29 else 28,
                31, 30, 31, 30, 31, 31, 30, 31, 30, 31] : List Nat).getD (digitsToNat b - 1) 0)
      else false
     else false) = true
    ↔ (a.length = 4 ∧ b.length = 2 ∧ c2.length = 2 ∧ pyIsDigitStr a = true ∧
       pyIsDigitStr b = true ∧ pyIsDigitStr c2 = true ∧
       1 ≤ digitsToNat b ∧ digitsToNat b ≤ 12 ∧
       1 ≤ digitsToNat c2 ∧
       digitsToNat c2 ≤ monthLength (digitsToNat a) (digitsToNat b)) := by
  by_cases hlen : a.length = 4 ∧ b.length = 2 ∧ c2.length = 2
  · rw [if_pos hlen]
    by_cases hdig : (pyIsDigitStr a && pyIsDigitStr b && pyIsDigitStr c2) = true
    · rw [if_pos hdig]
      obtain ⟨hda, hdb, hdc⟩ : pyIsDigitStr a = true ∧ pyIsDigitStr b = true ∧ pyIsDigitStr c2 = true := by
        simpa [Bool.and_assoc] using hdig
      by_cases hm : digitsToNat b < 1 ∨ 12 < digitsToNat b
      · rw [if_pos hm]
        simp only [Bool.false_eq_true, false_iff]
        rintro ⟨-, -, -, -, -, -, hm1, hm2, -, -⟩
        omega
      · rw [if_neg hm]
        rw [monthDays_getD_eq (digitsToNat a) (digitsToNat b) (by omega) (by omega)]
        constructor
        · intro h
          obtain ⟨h1, h2⟩ : (1 ≤ digitsToNat c2) ∧
              digitsToNat c2 ≤ monthLength (digitsToNat a) (digitsToNat b) := by
            simpa using h
          exact ⟨hlen.1, hlen.2.1, hlen.2.2, hda, hdb, hdc, by omega, by omega, h1, h2⟩
        · rintro ⟨-, -, -, -, -, -, -, -, hd1, hd2⟩
          simp [hd1, hd2]
    · rw [if_neg hdig]
      simp only [Bool.false_eq_true, false_iff]
      rintro ⟨-, -, -, hda, hdb, hdc, -⟩
      exact hdig (by simp [hda, hdb, hdc])
  · rw [if_neg hlen]
    simp only [Bool.false_eq_true, false_iff]
    rintro ⟨h1, h2, h3, -⟩
    exact hlen ⟨h1, h2, h3⟩

theorem date_valid_iff (s : String) :
    is_valid_date_yyyy_mm_dd s = true ↔ dateSpecAccepts s := by
  unfold is_valid_date_yyyy_mm_dd dateSpecAccepts
  rcases hsp : splitOnChar '-' (stripChars s.data) with _ | ⟨a, ps⟩
  · exact absurd hsp (splitOnChar_ne_nil _ _)
  rcases ps with _ | ⟨b, ps2⟩
  · simp
  rcases ps2 with _ | ⟨c2, ps3⟩
  · simp
  rcases ps3 with _ | ⟨e, ps4⟩
  case cons.cons.cons.cons => simp
  constructor
  · intro h
    exact ⟨a, b, c2, rfl, (date_core_iff a b c2).mp h⟩
  · rintro ⟨y, m, d, heq, hrest⟩
    obtain ⟨rfl, rfl, rfl⟩ : a = y ∧ b = m ∧ c2 = d := by simpa using heq
    exact (date_core_iff a b c2).mpr hrest

/-- C3: the date validator accepts a string exactly when, after trimming,
it splits on '-' into exactly 3 all-digit parts of widths 4/2/2 with the
month in [1,12] and the day between 1 and the length of that month, with
February 29 days iff the year is divisible by 400, or by 4 but not 100;
"2024-02-29" and "2000-02-29" are valid, "2023-02-29" and "1900-02-29"
invalid, and for any (year, month) a day one past the month length is
rejected. -/
theorem C3_date_validator_characterisation :
    (∀ s : String, is_valid_date_yyyy_mm_dd s = true ↔ dateSpecAccepts s) ∧
    is_valid_date_yyyy_mm_dd "2024-02-29" = true ∧
    is_valid_date_yyyy_mm_dd "2000-02-29" = true ∧
    is_valid_date_yyyy_mm_dd "2023-02-29" = false ∧
    is_valid_date_yyyy_mm_dd "1900-02-29" = false ∧
    ∀ y m : Nat, 1 ≤ m → m ≤ 12 → y ≤ 9999 →
      is_valid_date_yyyy_mm_dd (renderDate y m (monthLength y m + 1)) = false := by
  refine ⟨date_valid_iff, by decide, by decide, by decide, by decide, ?_⟩
  intro y m hm1 hm2 hy
  by_contra hcon
  rw [Bool.not_eq_false, date_valid_iff] at hcon
  obtain ⟨yt, mt, dt, hsp, h4, h5, h6, hdy, hdm, hdd, hm1a, hm2a, hd1, hd2⟩ := hcon
  rw [splitOnChar_renderDate] at hsp
  obtain ⟨rfl, rfl, rfl⟩ : render4 y = yt ∧ render2 m = mt ∧
      render2 (monthLength y m + 1) = dt := by simpa using hsp
  rw [digitsToNat_render4 y hy, digitsToNat_render2 m (by omega)] at hd2
  rw [digitsToNat_render2 _ (by have := monthLength_le_31 y m; omega)] at hd2
  omega

/-- C3 witness: the one-past-the-month-length rejection applied at
February 2023 (day 29). -/
theorem C3_date_validator_witness :
    is_valid_date_yyyy_mm_dd (renderDate 2023 2 (monthLength 2023 2 + 1)) = false :=
  C3_date_validator_characterisation.2.2.2.2.2 2023 2 (by decide) (by decide) (by decide)

/-! ### C1 / C5: the bounded-retry prompt protocol -/

theorem promptCurrencyCodeAux_all_fail (valid : String → Bool) (ae ec : Bool)
    (d : Option String) (inputs : Nat → String) :
    ∀ (fuel pos : Nat),
      (∀ i, i < fuel → stripUpper (inputs (pos + i)) ≠ "" ∧
        valid (stripUpper (inputs (pos + i))) = false) →
      promptCurrencyCodeAux valid ae d ec inputs pos fuel = ⟨none, pos + fuel, fuel, fuel⟩
  | 0, pos, _ => by simp [promptCurrencyCodeAux]
  | fuel + 1, pos, h => by
    have h0 := h 0 (by omega)
    rw [Nat.add_zero] at h0
    have ih := promptCurrencyCodeAux_all_fail valid ae ec d inputs fuel (pos + 1)
      (fun i hi => by
        have hx := h (i + 1) (by omega)
        rwa [show pos + (i + 1) = pos + 1 + i by omega] at hx)
    simp only [promptCurrencyCodeAux, if_neg h0.1, h0.2, Bool.false_eq_true, if_false, ih]
    rw [show pos + 1 + fuel = pos + (fuel + 1) by omega]

theorem promptAmountAux_all_fail (inputs : Nat → String) :
    ∀ (fuel pos : Nat),
      (∀ i, i < fuel → pyStrip (inputs (pos + i)) ≠ "" ∧
        is_number_str (pyStrip (inputs (pos + i))) = false) →
      promptAmountAux inputs pos fuel = (none, pos + fuel)
  | 0, pos, _ => by simp [promptAmountAux]
  | fuel + 1, pos, h => by
    have h0 := h 0 (by omega)
    rw [Nat.add_zero] at h0
    have ih := promptAmountAux_all_fail inputs fuel (pos + 1)
      (fun i hi => by
        have hx := h (i + 1) (by omega)
        rwa [show pos + (i + 1) = pos + 1 + i by omega] at hx)
    simp only [promptAmountAux, if_neg h0.1, h0.2, Bool.not_false, if_true, ih]
    rw [show pos + 1 + fuel = pos + (fuel + 1) by omega]

theorem promptDateAux_all_fail (inputs : Nat → String) :
    ∀ (fuel pos : Nat),
      (∀ i, i < fuel → pyStrip (inputs (pos + i)) ≠ "" ∧
        is_valid_date_yyyy_mm_dd (pyStrip (inputs (pos + i))) = false) →
      promptDateAux inputs pos fuel = (none, pos + fuel)
  | 0, pos, _ => by simp [promptDateAux]
  | fuel + 1, pos, h => by
    have h0 := h 0 (by omega)
    rw [Nat.add_zero] at h0
    have ih := promptDateAux_all_fail inputs fuel (pos + 1)
      (fun i hi => by
        have hx := h (i + 1) (by omega)
        rwa [show pos + (i + 1) = pos + 1 + i by omega] at hx)
    simp only [promptDateAux, if_neg h0.1, h0.2, Bool.false_eq_true, if_false, ih]
    rw [show pos + 1 + fuel = pos + (fuel + 1) by omega]

/-- C1: on every prompted field (currency code, amount, date), when the
field validator fails on each supplied non-empty input, the prompt is
invoked exactly 3 times (`nextPos = pos + 3`), then signals cancellation
(`none`); and (last conjunct) the caller abandons the whole in-progress
action: the conversion action ends cancelled with no provider call and no
audit event. -/
theorem C1_retry_exhaustion :
    (∀ (valid : String → Bool) (ae ec : Bool) (d : Option String)
       (inputs : Nat → String) (pos : Nat),
       (∀ i, i < 3 → stripUpper (inputs (pos + i)) ≠ "" ∧
          valid (stripUpper (inputs (pos + i))) = false) →
       prompt_currency_code valid ae d ec inputs pos = ⟨none, pos + 3, 3, 3⟩) ∧
    (∀ (inputs : Nat → String) (pos : Nat),
       (∀ i, i < 3 → pyStrip (inputs (pos + i)) ≠ "" ∧
          is_number_str (pyStrip (inputs (pos + i))) = false) →
       prompt_amount inputs pos = (none, pos + 3)) ∧
    (∀ (inputs : Nat → String) (pos : Nat),
       (∀ i, i < 3 → pyStrip (inputs (pos + i)) ≠ "" ∧
          is_valid_date_yyyy_mm_dd (pyStrip (inputs (pos + i))) = false) →
       prompt_date_or_latest inputs pos = (none, pos + 3)) ∧
    (∀ (st : ConvState) (p : Provider) (inputs : Nat → String) (pos : Nat),
       (∀ i, i < 3 → stripUpper (inputs (pos + i)) ≠ "" ∧
          is_valid_currency_code (effCurrencies st p)
            (some (stripUpper (inputs (pos + i)))) = false) →
       convert_currency_amount st p inputs pos = ⟨.cancelled, [], []⟩) := by
  refine ⟨?_, ?_, ?_, ?_⟩
  · intro valid ae ec d inputs pos h
    exact promptCurrencyCodeAux_all_fail valid ae ec d inputs 3 pos h
  · intro inputs pos h
    exact promptAmountAux_all_fail inputs 3 pos h
  · intro inputs pos h
    exact promptDateAux_all_fail inputs 3 pos h
  · intro st p inputs pos h
    have ho1 : prompt_currency_code
        (fun c => is_valid_currency_code (effCurrencies st p) (some c)) true
        (some st.base_currency) false inputs pos = ⟨none, pos + 3, 3, 3⟩ :=
      promptCurrencyCodeAux_all_fail _ true false _ inputs 3 pos h
    simp only [convert_currency_amount, ho1]

/-- C1 witness: the four parts applied to the always-invalid input "x"
(not a code, not a number, not a date). -/
theorem C1_retry_exhaustion_witness :
    prompt_currency_code (fun _ => false) true none false (fun _ => "x") 0
      = ⟨none, 3, 3, 3⟩ ∧
    prompt_amount (fun _ => "x") 0 = (none, 3) ∧
    prompt_date_or_latest (fun _ => "x") 0 = (none, 3) ∧
    convert_currency_amount ⟨"USD", fallback_currencies⟩
      ⟨none, fun _ _ => none, fun _ _ _ => none⟩ (fun _ => "x") 0
      = ⟨.cancelled, [], []⟩ :=
  ⟨C1_retry_exhaustion.1 (fun _ => false) true false none (fun _ => "x") 0
      (fun i _ => ⟨by show stripUpper "x" ≠ ""; decide, rfl⟩),
   C1_retry_exhaustion.2.1 (fun _ => "x") 0
      (fun i _ => ⟨by show pyStrip "x" ≠ ""; decide,
        by show is_number_str (pyStrip "x") = false; decide⟩),
   C1_retry_exhaustion.2.2.1 (fun _ => "x") 0
      (fun i _ => ⟨by show pyStrip "x" ≠ ""; decide,
        by show is_valid_date_yyyy_mm_dd (pyStrip "x") = false; decide⟩),
   C1_retry_exhaustion.2.2.2 ⟨"USD", fallback_currencies⟩
      ⟨none, fun _ _ => none, fun _ _ _ => none⟩ (fun _ => "x") 0
      (fun i _ => ⟨by show stripUpper "x" ≠ ""; decide,
        by show is_valid_currency_code
            (effCurrencies ⟨"USD", fallback_currencies⟩
              ⟨none, fun _ _ => none, fun _ _ _ => none⟩)
            (some (stripUpper "x")) = false; decide⟩)⟩

theorem promptCurrencyCodeAux_empty_default (valid : String → Bool) (ec : Bool)
    (d : String) (inputs : Nat → String) (pos fuel : Nat)
    (h : stripUpper (inputs pos) = "") :
    promptCurrencyCodeAux valid true (some d) ec inputs pos (fuel + 1)
      = ⟨some d, pos + 1, 0, 0⟩ := by
  simp only [promptCurrencyCodeAux, h, if_pos rfl]
  rw [if_pos (show True ∧ some d ≠ none from ⟨trivial, Option.some_ne_none d⟩)]
  rw [if_pos trivial]

/-- C5: on a currency-code field configured with allow-empty and a
default value, empty input returns the default at once: one prompt
invocation, no validator call, no retry attempt consumed. -/
theorem C5_empty_input_returns_default (valid : String → Bool) (ec : Bool)
    (d : String) (inputs : Nat → String) (pos : Nat)
    (h : stripUpper (inputs pos) = "") :
    prompt_currency_code valid true (some d) ec inputs pos
      = ⟨some d, pos + 1, 0, 0⟩ :=
  promptCurrencyCodeAux_empty_default valid ec d inputs pos 2 h

/-- C5 witness: the theorem applied to empty input with default "USD". -/
theorem C5_empty_input_witness :
    prompt_currency_code (fun _ => false) true (some "USD") false (fun _ => "") 0
      = ⟨some "USD", 1, 0, 0⟩ :=
  C5_empty_input_returns_default (fun _ => false) false "USD" (fun _ => "") 0 (by decide)

/-! ### C2 / C6: orchestrator behaviour -/

theorem convert_cases (st : ConvState) (p : Provider) (inputs : Nat → String)
    (pos : Nat) :
    convert_currency_amount st p inputs pos = ⟨.cancelled, [], []⟩ ∨
    convert_currency_amount st p inputs pos = ⟨.sameCurrency, [], []⟩ ∨
    (∃ call, p.callResult call = none ∧
      convert_currency_amount st p inputs pos = ⟨.rateUnavailable, [call], []⟩) ∨
    (∃ call amount rate rate_date ev,
      p.callResult call = some (rate, rate_date) ∧
      convert_currency_amount st p inputs pos
        = ⟨.success amount (amount * rate) rate rate_date, [call], [ev]⟩) := by
  simp only [convert_currency_amount]
  split
  · exact Or.inl rfl
  split
  · exact Or.inl rfl
  split
  · exact Or.inr (Or.inl rfl)
  split
  · exact Or.inl rfl
  split
  · exact Or.inl rfl
  split
  · exact Or.inr (Or.inr (Or.inl ⟨_, by assumption, rfl⟩))
  · exact Or.inr (Or.inr (Or.inr ⟨_, _, _, _, _, by assumption, rfl⟩))

/-- C2: whenever a conversion action makes a rate request whose provider
answer is the "unavailable" sentinel, the action reports failure
(`rateUnavailable`, the "Failed to retrieve rate." path) and terminates
with no success audit event; no converted amount exists in the outcome
(only the `success` result carries one). -/
theorem C2_provider_unavailable_no_audit (st : ConvState) (p : Provider)
    (inputs : Nat → String) (pos : Nat)
    (h : ∃ c ∈ (convert_currency_amount st p inputs pos).providerCalls,
      p.callResult c = none) :
    (convert_currency_amount st p inputs pos).result = ConvertResult.rateUnavailable ∧
    (convert_currency_amount st p inputs pos).auditLog = [] := by
  rcases convert_cases st p inputs pos with hE | hE | ⟨call, hc, hE⟩ |
    ⟨call, a, r, rd, ev, hc, hE⟩
  · rw [hE] at h
    simp at h
  · rw [hE] at h
    simp at h
  · rw [hE]
    exact ⟨rfl, rfl⟩
  · rw [hE] at h
    simp only [ConvertOut.mk.injEq] at h
    obtain ⟨c, hmem, hnone⟩ := h
    rw [List.mem_singleton] at hmem
    subst hmem
    rw [hc] at hnone
    exact absurd hnone (by simp)

/-- Input stream for the C2 witness: source USD, target EUR, amount 100,
empty date (= latest). -/
def c2Inputs : Nat → String :=
  fun n => if n = 0 then "USD" else if n = 1 then "EUR" else if n = 2 then "100" else ""

/-- The fully unavailable provider. -/
def unavailableProvider : Provider := ⟨none, fun _ _ => none, fun _ _ _ => none⟩

/-- C2 witness: the theorem applied to a run that requests USD→EUR from
the unavailable provider. -/
theorem C2_provider_unavailable_witness :
    (convert_currency_amount ⟨"USD", fallback_currencies⟩ unavailableProvider
        c2Inputs 0).result = ConvertResult.rateUnavailable ∧
    (convert_currency_amount ⟨"USD", fallback_currencies⟩ unavailableProvider
        c2Inputs 0).auditLog = [] :=
  C2_provider_unavailable_no_audit ⟨"USD", fallback_currencies⟩ unavailableProvider
    c2Inputs 0 ⟨ProviderCall.latest "USD" "EUR", by decide, by decide⟩

/-- Provider and inputs for the C6 counterexample: base and target both
resolve to USD, the provider has a rate for every pair. -/
def c6Provider : Provider :=
  ⟨none, fun _ _ => some (1, "2025-01-02"), fun _ _ _ => some (1, "2025-01-02")⟩

def c6Inputs : Nat → String := fun n => if n = 1 then "USD" else ""

/-- C6 counterexample: in the rate-lookup action `get_exchange_rate_cli`,
with accepted base = accepted target = "USD", a rate lookup IS performed
(the claim states no rate lookup happens when target equals source). -/
theorem C6_rate_lookup_counterexample :
    (get_exchange_rate_cli ⟨"USD", fallback_currencies⟩ c6Provider c6Inputs 0).providerCalls
      = [ProviderCall.latest "USD" "USD"] := by decide

/-- C6 (amended): only the conversion action rejects target = source:
when both currency prompts of `convert_currency_amount` accept the same
code, the action ends with the no-op informational result and performs no
rate lookup and no audit log entry.  (`get_exchange_rate_cli` has no such
check and performs the lookup, see the counterexample.) -/
theorem C6_same_currency_convert_noop (st : ConvState) (p : Provider)
    (inputs : Nat → String) (pos : Nat) (c : String)
    (h1 : (prompt_currency_code
        (fun x => is_valid_currency_code (effCurrencies st p) (some x)) true
        (some st.base_currency) false inputs pos).result = some c)
    (h2 : (prompt_currency_code
        (fun x => is_valid_currency_code (effCurrencies st p) (some x)) false
        none false inputs
        (prompt_currency_code
          (fun x => is_valid_currency_code (effCurrencies st p) (some x)) true
          (some st.base_currency) false inputs pos).nextPos).result = some c) :
    convert_currency_amount st p inputs pos = ⟨.sameCurrency, [], []⟩ := by
  simp only [convert_currency_amount, h1, h2]
  rw [if_pos trivial]

/-- C6 witness: the amended theorem applied to a run whose two prompts
both accept "USD". -/
theorem C6_same_currency_witness :
    convert_currency_amount ⟨"USD", fallback_currencies⟩ unavailableProvider
      (fun _ => "USD") 0 = ⟨.sameCurrency, [], []⟩ :=
  C6_same_currency_convert_noop ⟨"USD", fallback_currencies⟩ unavailableProvider
    (fun _ => "USD") 0 "USD" (by decide) (by decide)

/-! ### C8: registry load ordering and fallback -/

theorem stringDataEq (s t : String) (h : s.data = t.data) : s = t := by
  cases s
  cases t
  exact congrArg String.mk h

theorem pairLe_iff (a b : String × String) :
    pairLe a b = true ↔
      (a.1.data < b.1.data ∨ (a.1 = b.1 ∧ a.2.data ≤ b.2.data)) := by
  unfold pairLe
  simp [Bool.or_eq_true, Bool.and_eq_true, decide_eq_true_eq]

theorem pairLe_trans (a b c : String × String)
    (h1 : pairLe a b = true) (h2 : pairLe b c = true) : pairLe a c = true := by
  rw [pairLe_iff] at h1 h2 ⊢
  rcases h1 with h1 | ⟨h1e, h1v⟩ <;> rcases h2 with h2 | ⟨h2e, h2v⟩
  · exact Or.inl (lt_trans h1 h2)
  · exact Or.inl (by rw [← h2e]; exact h1)
  · exact Or.inl (by rw [h1e]; exact h2)
  · exact Or.inr ⟨h1e.trans h2e, le_trans h1v h2v⟩

theorem pairLe_total (a b : String × String) :
    (pairLe a b || pairLe b a) = true := by
  rw [Bool.or_eq_true, pairLe_iff, pairLe_iff]
  rcases lt_trichotomy a.1.data b.1.data with h | h | h
  · exact Or.inl (Or.inl h)
  · have he : a.1 = b.1 := stringDataEq _ _ h
    rcases le_total a.2.data b.2.data with hv | hv
    · exact Or.inl (Or.inr ⟨he, hv⟩)
    · exact Or.inr (Or.inr ⟨he.symm, hv⟩)
  · exact Or.inr (Or.inl h)

/-- C8 counterexample: after the fallback load (provider listing
unavailable) the registry is NOT ordered by code — it keeps the literal
order USD, EUR, THB, JPY, GBP. -/
theorem C8_fallback_order_counterexample :
    ¬ List.Pairwise (fun a b : String × String => a.1.data ≤ b.1.data)
      (load_supported_currencies none) := by decide

/-- C8 (amended): a successful registry load sorts the entries by code
(Python `dict(sorted(...))`), and when the provider listing is
unavailable the registry is the built-in 5-entry fallback set — nonempty,
not abandoned — but in its literal insertion order, which is not sorted
by code. -/
theorem C8_registry_load_amended :
    (∀ data : List (String × String),
      List.Pairwise (fun a b : String × String => a.1.data ≤ b.1.data)
        (load_supported_currencies (some data))) ∧
    load_supported_currencies none = fallback_currencies ∧
    load_supported_currencies none ≠ [] := by
  refine ⟨?_, rfl, by decide⟩
  intro data
  have hs := @List.sorted_mergeSort _ pairLe
    (fun a b c => pairLe_trans a b c) (fun a b => pairLe_total a b) data
  unfold load_supported_currencies
  refine hs.imp ?_
  intro a b hab
  rw [pairLe_iff] at hab
  rcases hab with h | ⟨he, -⟩
  · exact le_of_lt h
  · exact le_of_eq (by rw [he])

/-! ### C9: provider sentinel conditions -/

theorem except_bind_ok {ee α β : Type} (a : α) (f : α → Except ee β) :
    (Except.ok a >>= f : Except ee β) = f a := rfl

/-- C9 counterexample: a decoded body that is a bare JSON number (it has
no "rates" field) makes both fetch operations raise `TypeError`
(`"rates" not in 5` is a `TypeError` in Python) instead of returning the
`(None, None)` sentinel. -/
theorem C9_nondict_body_counterexample :
    fetch_latest_rate (some (Json.jnum 5)) "EUR" = .error "TypeError" ∧
    fetch_rate_on_date (some (Json.jnum 5)) "EUR" "2025-01-02"
      = .error "TypeError" := ⟨rfl, rfl⟩

/-- C9 (amended): both fetch operations return the `(None, None)`
sentinel — raising nothing — whenever the HTTP layer reports failure
(`http_get_json` returned `None`: timeouts, transport, HTTP and
JSON-decode errors), whenever the membership test for "rates" on the
decoded body is defined and false, and whenever "rates" indexes to a
value on which the membership test for the target symbol is defined and
false.  (Non-container bodies make the membership test itself raise, see
the counterexample.) -/
theorem C9_fetch_sentinel_amended :
    (∀ target : String, fetch_latest_rate none target = .ok none) ∧
    (∀ (target date : String), fetch_rate_on_date none target date = .ok none) ∧
    (∀ (data : Json) (target : String), jsonHasKey data "rates" = .ok false →
      fetch_latest_rate (some data) target = .ok none) ∧
    (∀ (data : Json) (target date : String), jsonHasKey data "rates" = .ok false →
      fetch_rate_on_date (some data) target date = .ok none) ∧
    (∀ (data rates : Json) (target : String), jsonHasKey data "rates" = .ok true →
      jsonIndex data "rates" = .ok rates → jsonHasKey rates target = .ok false →
      fetch_latest_rate (some data) target = .ok none) ∧
    (∀ (data rates : Json) (target date : String), jsonHasKey data "rates" = .ok true →
      jsonIndex data "rates" = .ok rates → jsonHasKey rates target = .ok false →
      fetch_rate_on_date (some data) target date = .ok none) := by
  refine ⟨fun _ => rfl, fun _ _ => rfl, ?_, ?_, ?_, ?_⟩
  · intro data target h
    simp only [fetch_latest_rate, h]
    rfl
  · intro data target date h
    simp only [fetch_rate_on_date, h]
    rfl
  · intro data rates target h1 h2 h3
    simp only [fetch_latest_rate, h1, h2, h3, except_bind_ok, Bool.true_eq_false,
      Bool.false_eq_true, if_false, if_true]
    rfl
  · intro data rates target date h1 h2 h3
    simp only [fetch_rate_on_date, h1, h2, h3, except_bind_ok, Bool.true_eq_false,
      Bool.false_eq_true, if_false, if_true]
    rfl

/-- C9 witness: the sentinel cases applied to a body without "rates" and
to a "rates" object missing the requested symbol. -/
theorem C9_fetch_sentinel_witness :
    fetch_latest_rate (some (Json.jobj [("foo", Json.jnum 1)])) "EUR" = .ok none ∧
    fetch_rate_on_date (some (Json.jobj [("rates", Json.jobj [("JPY", Json.jnum 5)])]))
      "EUR" "2025-01-02" = .ok none :=
  ⟨C9_fetch_sentinel_amended.2.2.1 (Json.jobj [("foo", Json.jnum 1)]) "EUR" rfl,
   C9_fetch_sentinel_amended.2.2.2.2.2 (Json.jobj [("rates", Json.jobj [("JPY", Json.jnum 5)])])
     (Json.jobj [("JPY", Json.jnum 5)]) "EUR" "2025-01-02" rfl rfl rfl⟩

/-! ### C10: the set-base-currency frame condition -/

theorem promptCurrencyCodeAux_some (valid : String → Bool) (ae ec : Bool)
    (d : Option String) (inputs : Nat → String) :
    ∀ (fuel pos : Nat) (c : String),
      (promptCurrencyCodeAux valid ae d ec inputs pos fuel).result = some c →
      valid c = true ∨ (ae = true ∧ d = some c)
  | 0, pos, c, h => by simp [promptCurrencyCodeAux] at h
  | fuel + 1, pos, c, h => by
    simp only [promptCurrencyCodeAux] at h
    by_cases hce : stripUpper (inputs pos) = ""
    · rw [if_pos hce] at h
      by_cases hd : ae = true ∧ d ≠ none
      · rw [if_pos hd] at h
        exact Or.inr ⟨hd.1, h⟩
      · rw [if_neg hd] at h
        by_cases hec : ec = true
        · rw [if_pos hec] at h
          simp at h
        · rw [if_neg hec] at h
          exact promptCurrencyCodeAux_some valid ae ec d inputs fuel (pos + 1) c h
    · rw [if_neg hce] at h
      by_cases hv : valid (stripUpper (inputs pos)) = true
      · rw [if_pos hv] at h
        have hc2 : stripUpper (inputs pos) = c := by simpa using h
        exact Or.inl (hc2 ▸ hv)
      · rw [if_neg hv] at h
        exact promptCurrencyCodeAux_some valid ae ec d inputs fuel (pos + 1) c h

theorem promptCurrencyCodeAux_empty_cancel (valid : String → Bool)
    (inputs : Nat → String) (pos fuel : Nat)
    (h : stripUpper (inputs pos) = "") :
    promptCurrencyCodeAux valid false none true inputs pos (fuel + 1)
      = ⟨none, pos + 1, 0, 0⟩ := by
  simp only [promptCurrencyCodeAux, h]
  rw [if_pos trivial,
    if_neg (show ¬(false = true ∧ (none : Option String) ≠ none) by simp),
    if_pos trivial]

/-- C10: the set-base-currency action changes the session base currency
only to a code accepted by `is_valid_currency_code`; on empty input
(treated as cancel) and after 3 failed attempts (every supplied input
non-empty and rejected by the code validator) the base currency keeps
its previous value; and the initial base currency is "USD". -/
theorem C10_set_base_currency_frame (st : ConvState) (p : Provider)
    (inputs : Nat → String) (pos : Nat) :
    ((set_base_currency st p inputs pos).base_currency = st.base_currency ∨
      is_valid_currency_code (effCurrencies st p)
        (some ((set_base_currency st p inputs pos).base_currency)) = true) ∧
    (stripUpper (inputs pos) = "" →
      (set_base_currency st p inputs pos).base_currency = st.base_currency) ∧
    ((∀ i, i < 3 → stripUpper (inputs (pos + i)) ≠ "" ∧
        is_valid_currency_code (effCurrencies st p)
          (some (stripUpper (inputs (pos + i)))) = false) →
      (set_base_currency st p inputs pos).base_currency = st.base_currency) ∧
    (ConvState.init p).base_currency = "USD" := by
  refine ⟨?_, ?_, ?_, rfl⟩
  · simp only [set_base_currency]
    rcases hres : (prompt_currency_code
        (fun c => is_valid_currency_code (effCurrencies st p) (some c)) false
        none true inputs pos).result with _ | code
    · exact Or.inl rfl
    · have hv := promptCurrencyCodeAux_some
        (fun c => is_valid_currency_code (effCurrencies st p) (some c)) false true
        none inputs 3 pos code hres
      rcases hv with hv | ⟨hfalse, -⟩
      · exact Or.inr hv
      · exact absurd hfalse (by simp)
  · intro h
    simp only [set_base_currency]
    unfold prompt_currency_code
    rw [promptCurrencyCodeAux_empty_cancel _ inputs pos 2 h]
  · intro h
    have hp := promptCurrencyCodeAux_all_fail
      (fun c => is_valid_currency_code (effCurrencies st p) (some c)) false true
      none inputs 3 pos h
    simp only [set_base_currency]
    unfold prompt_currency_code
    rw [hp]

/-- C10 witness: empty input leaves the base currency unchanged, and so
do 3 failed attempts on the always-invalid input "x". -/
theorem C10_set_base_currency_witness :
    ((set_base_currency ⟨"EUR", fallback_currencies⟩ unavailableProvider
        (fun _ => "") 0).base_currency = "EUR" ∨
      is_valid_currency_code
        (effCurrencies ⟨"EUR", fallback_currencies⟩ unavailableProvider)
        (some ((set_base_currency ⟨"EUR", fallback_currencies⟩ unavailableProvider
          (fun _ => "") 0).base_currency)) = true) ∧
    (set_base_currency ⟨"EUR", fallback_currencies⟩ unavailableProvider
        (fun _ => "") 0).base_currency = "EUR" ∧
    (set_base_currency ⟨"EUR", fallback_currencies⟩ unavailableProvider
        (fun _ => "x") 0).base_currency = "EUR" :=
  ⟨(C10_set_base_currency_frame ⟨"EUR", fallback_currencies⟩ unavailableProvider
      (fun _ => "") 0).1,
   (C10_set_base_currency_frame ⟨"EUR", fallback_currencies⟩ unavailableProvider
      (fun _ => "") 0).2.1 (by decide),
   (C10_set_base_currency_frame ⟨"EUR", fallback_currencies⟩ unavailableProvider
      (fun _ => "x") 0).2.2.1
     (fun i _ => ⟨by show stripUpper "x" ≠ ""; decide,
       by show is_valid_currency_code
           (effCurrencies ⟨"EUR", fallback_currencies⟩ unavailableProvider)
           (some (stripUpper "x")) = false; decide⟩)⟩
